import Mathlib

/-!
Shallow embedding of the transcript renderer of `convert_to_markdown.py`
(granola-meeting-download-script): filename sanitization, ISO-8601 datetime
parsing and formatting, transcript body formatting, duration and statistics
computation, and full Markdown document assembly, together with theorems
settling the specification claims.

Python dictionaries with optional string/integer fields are modelled as
structures of `Option`-typed fields; every fallible stdlib call
(`datetime.fromisoformat`) is modelled as an `Option`-returning parser, and
the `try/except` blocks of the source become `match` on those options.
-/

set_option maxRecDepth 8000

namespace Granola

/-! ### Python string primitives -/

/-- ASCII whitespace as recognised by Python's `str.strip()` / `str.split()`
(space, tab, newline, carriage return, vertical tab, form feed). -/
def pyIsSpace (c : Char) : Bool :=
  c = ' ' || c = '\t' || c = '\n' || c = '\r' || c = Char.ofNat 11 || c = Char.ofNat 12

/-- `str.strip()`: drop leading and trailing whitespace. -/
def pyStrip (s : String) : String :=
  ⟨((s.data.dropWhile pyIsSpace).reverse.dropWhile pyIsSpace).reverse⟩

/-- Token counter for `len(text.split())`: counts maximal runs of
non-whitespace characters.  The boolean argument records whether the previous
character was inside a token. -/
def wordCountAux : Bool → List Char → Nat
  | _, [] => 0
  | inTok, c :: cs =>
    if pyIsSpace c then wordCountAux false cs
    else (if inTok then 0 else 1) + wordCountAux true cs

/-- `len(s.split())` in Python: the number of whitespace-separated tokens. -/
def wordCount (s : String) : Nat := wordCountAux false s.data

/-- Membership in Python's `string.printable` (ASCII 0x20–0x7e plus the five
whitespace control characters tab, newline, carriage return, vertical tab and
form feed). -/
def pyPrintable (c : Char) : Bool :=
  (32 ≤ c.toNat && c.toNat ≤ 126) || c = '\t' || c = '\n' || c = '\r'
    || c = Char.ofNat 11 || c = Char.ofNat 12

/-- The filesystem-unsafe characters removed by `sanitize_filename`. -/
def invalidChar (c : Char) : Bool :=
  c = '<' || c = '>' || c = ':' || c = '"' || c = '/' || c = '\\'
    || c = '|' || c = '?' || c = '*'

/-- The per-character replacement of `sanitize_filename`: keep a character
that is printable and not filesystem-unsafe, replace anything else by a dash. -/
def sanitizeMap (c : Char) : Char :=
  if pyPrintable c && !invalidChar c then c else '-'

/-- `'--' in s`: the string contains two adjacent dashes. -/
def hasDD : List Char → Bool
  | c1 :: c2 :: rest => (c1 = '-' && c2 = '-') || hasDD (c2 :: rest)
  | _ => false

/-- One pass of `s.replace('--', '-')`: replace non-overlapping occurrences of
`--` by `-`, scanning left to right. -/
def replaceDD : List Char → List Char
  | c1 :: c2 :: rest =>
    if c1 = '-' && c2 = '-' then '-' :: replaceDD rest
    else c1 :: replaceDD (c2 :: rest)
  | [c] => [c]
  | [] => []

theorem replaceDD_length_le : ∀ l : List Char, (replaceDD l).length ≤ l.length
  | [] => by simp [replaceDD]
  | [c] => by simp [replaceDD]
  | c1 :: c2 :: rest => by
    rw [replaceDD]
    by_cases h : c1 = '-' && c2 = '-'
    · simp only [h, if_true, List.length_cons]
      have := replaceDD_length_le rest
      omega
    · simp only [h, if_false, List.length_cons]
      have := replaceDD_length_le (c2 :: rest)
      simpa using this

theorem replaceDD_length_lt : ∀ l : List Char, hasDD l = true → (replaceDD l).length < l.length
  | [], h => by simp [hasDD] at h
  | [c], h => by simp [hasDD] at h
  | c1 :: c2 :: rest, h => by
    rw [replaceDD]
    rw [hasDD] at h
    by_cases hd : c1 = '-' && c2 = '-'
    · simp only [hd, if_true, List.length_cons]
      have := replaceDD_length_le rest
      omega
    · simp only [hd, if_false, List.length_cons]
      have hrest : hasDD (c2 :: rest) = true := by
        rcases Bool.or_eq_true_iff.mp h with h1 | h2
        · exact absurd h1 hd
        · exact h2
      have := replaceDD_length_lt (c2 :: rest) hrest
      simpa using this

/-- The `while '--' in sanitized:` loop of `sanitize_filename`: repeat
`replace('--', '-')` until no two adjacent dashes remain. -/
def collapseDashes (l : List Char) : List Char :=
  if _h : hasDD l = true then collapseDashes (replaceDD l) else l
termination_by l.length
decreasing_by exact replaceDD_length_lt l _h

/-- Remove a trailing run of dashes (the right half of `strip('-')`). -/
def dropTrailingDashes : List Char → List Char
  | [] => []
  | c :: rest =>
    match dropTrailingDashes rest with
    | [] => if c = '-' then [] else [c]
    | r => c :: r

/-- `s.strip('-')`: remove leading and trailing runs of dashes. -/
def stripDashes (l : List Char) : List Char :=
  dropTrailingDashes (l.dropWhile (fun c => c = '-'))

/-- `sanitize_filename` from `convert_to_markdown.py`: empty input falls back
to `"untitled"`; otherwise map every character through `sanitizeMap`, collapse
repeated dashes, strip leading/trailing dashes, truncate to 100 characters,
and fall back to `"untitled"` if the result is empty. -/
def sanitize_filename (filename : String) : String :=
  if filename = "" then "untitled"
  else
    let sanitized := filename.data.map sanitizeMap
    let collapsed := collapseDashes sanitized
    let stripped := (stripDashes collapsed).take 100
    if stripped = [] then "untitled" else ⟨stripped⟩

/-! ### Proleptic Gregorian calendar (Python `datetime.date.toordinal`) -/

def isLeap (y : Nat) : Bool :=
  y % 4 = 0 && (y % 100 ≠ 0 || y % 400 = 0)

def daysInMonth (y m : Nat) : Nat :=
  if m = 2 then (if isLeap y then 29 else 28)
  else if m = 4 || m = 6 || m = 9 || m = 11 then 30
  else 31

/-- Days in year `y` before the first day of month `m`. -/
def daysBeforeMonth (y m : Nat) : Nat :=
  (List.range (m - 1)).foldl (fun acc i => acc + daysInMonth y (i + 1)) 0

/-- Python's `date(y, m, d).toordinal()`: day number counting from
0001-01-01 = 1 in the proleptic Gregorian calendar. -/
def toordinal (y m d : Nat) : Nat :=
  365 * (y - 1) + (y - 1) / 4 - (y - 1) / 100 + (y - 1) / 400 + daysBeforeMonth y m + d

/-! ### `datetime.fromisoformat` model -/

/-- A parsed Python `datetime`: naive when `tz = none`, otherwise aware with a
fixed UTC offset in seconds. -/
structure PyDateTime where
  year : Nat
  month : Nat
  day : Nat
  hour : Nat
  minute : Nat
  second : Nat
  microsecond : Nat
  tz : Option Int
deriving Repr, DecidableEq

def digitVal (c : Char) : Option Nat :=
  if c.isDigit then some (c.toNat - 48) else none

def read2 : List Char → Option (Nat × List Char)
  | a :: b :: rest =>
    match digitVal a, digitVal b with
    | some x, some y => some (10 * x + y, rest)
    | _, _ => none
  | _ => none

def read4 : List Char → Option (Nat × List Char)
  | a :: b :: c :: d :: rest =>
    match digitVal a, digitVal b, digitVal c, digitVal d with
    | some x1, some x2, some x3, some x4 => some (1000 * x1 + 100 * x2 + 10 * x3 + x4, rest)
    | _, _, _, _ => none
  | _ => none

/-- A fractional-second field of exactly three digits (milliseconds). -/
def readFrac3 : List Char → Option (Nat × List Char)
  | a :: b :: c :: rest =>
    match digitVal a, digitVal b, digitVal c with
    | some x1, some x2, some x3 => some ((100 * x1 + 10 * x2 + x3) * 1000, rest)
    | _, _, _ => none
  | _ => none

/-- A fractional-second field of exactly six digits (microseconds), falling
back to three digits, as accepted by `datetime.fromisoformat`. -/
def readFrac (l : List Char) : Option (Nat × List Char) :=
  match l with
  | a :: b :: c :: d :: e :: f :: rest =>
    match digitVal a, digitVal b, digitVal c, digitVal d, digitVal e, digitVal f with
    | some x1, some x2, some x3, some x4, some x5, some x6 =>
      some (100000 * x1 + 10000 * x2 + 1000 * x3 + 100 * x4 + 10 * x5 + x6, rest)
    | _, _, _, _, _, _ => readFrac3 l
  | _ => readFrac3 l

/-- The time-of-day part `HH[:MM[:SS[.fff[fff]]]]`, returning
(hour, minute, second, microsecond, rest). -/
def readTime (l : List Char) : Option (Nat × Nat × Nat × Nat × List Char) :=
  match read2 l with
  | some (hh, rest) =>
    match rest with
    | ':' :: r2 =>
      match read2 r2 with
      | some (mm, rest2) =>
        match rest2 with
        | ':' :: r3 =>
          match read2 r3 with
          | some (ss, rest3) =>
            match rest3 with
            | '.' :: r4 =>
              match readFrac r4 with
              | some (us, rest4) => some (hh, mm, ss, us, rest4)
              | none => none
            | _ => some (hh, mm, ss, 0, rest3)
          | none => none
        | _ => some (hh, mm, 0, 0, rest2)
      | none => none
    | _ => some (hh, 0, 0, 0, rest)
  | none => none

/-- The timezone tail after the sign: `HH:MM[:SS]`, producing an offset in
seconds (multiplied by `sign`); the whole remaining input must be consumed. -/
def readTzTail (sign : Int) (l : List Char) : Option Int :=
  match read2 l with
  | some (hh, ':' :: rest) =>
    match read2 rest with
    | some (mm, rest2) =>
      if hh ≤ 23 && mm ≤ 59 then
        match rest2 with
        | [] => some (sign * (hh * 3600 + mm * 60))
        | ':' :: r3 =>
          match read2 r3 with
          | some (ss, []) => if ss ≤ 59 then some (sign * (hh * 3600 + mm * 60 + ss)) else none
          | _ => none
        | _ => none
      else none
    | none => none
  | _ => none

/-- Model of Python's `datetime.fromisoformat`: `YYYY-MM-DD`, optionally
followed by a one-character separator and `HH[:MM[:SS[.fff[fff]]]]`,
optionally followed by a UTC offset `±HH:MM[:SS]`.  Field ranges are
validated as the `datetime` constructor does; any leftover input fails. -/
def fromisoformatChars (l : List Char) : Option PyDateTime :=
  match read4 l with
  | some (y, '-' :: r1) =>
    match read2 r1 with
    | some (mo, '-' :: r2) =>
      match read2 r2 with
      | some (d, rest) =>
        if y < 1 || mo < 1 || mo > 12 || d < 1 || d > daysInMonth y mo then none
        else
          match rest with
          | [] => some ⟨y, mo, d, 0, 0, 0, 0, none⟩
          | _sep :: trest =>
            match readTime trest with
            | some (hh, mm, ss, us, rest2) =>
              if hh > 23 || mm > 59 || ss > 59 then none
              else
                match rest2 with
                | [] => some ⟨y, mo, d, hh, mm, ss, us, none⟩
                | '+' :: r => (readTzTail 1 r).map (fun off => ⟨y, mo, d, hh, mm, ss, us, some off⟩)
                | '-' :: r => (readTzTail (-1) r).map (fun off => ⟨y, mo, d, hh, mm, ss, us, some off⟩)
                | _ => none
            | none => none
      | _ => none
    | _ => none
  | _ => none

def fromisoformat (s : String) : Option PyDateTime :=
  fromisoformatChars s.data

/-- `s.replace('Z', '+00:00')`: every occurrence of `Z` is replaced. -/
def replaceZChars : List Char → List Char
  | [] => []
  | 'Z' :: rest => '+' :: '0' :: '0' :: ':' :: '0' :: '0' :: replaceZChars rest
  | c :: rest => c :: replaceZChars rest

def pyReplaceZ (s : String) : String :=
  ⟨replaceZChars s.data⟩

/-! ### `strftime` models -/

def weekdayNames : List String :=
  ["Monday", "Tuesday", "Wednesday", "Thursday", "Friday", "Saturday", "Sunday"]

def monthNames : List String :=
  ["January", "February", "March", "April", "May", "June", "July", "August",
   "September", "October", "November", "December"]

/-- `%A` for the date with the given ordinal (ordinal 1 = Monday). -/
def weekdayName (ord : Nat) : String :=
  weekdayNames.getD ((ord + 6) % 7) ""

/-- `%B` for month `m` (1-based). -/
def monthName (m : Nat) : String :=
  monthNames.getD (m - 1) ""

/-- Zero-padded two-digit decimal rendering (`%d`, `%H`, `%I`, `%M`, `%S`). -/
def pad2 (n : Nat) : String :=
  if n < 10 then "0" ++ toString n else toString n

/-- `dt.strftime('%A, %B %d, %Y at %I:%M %p')`. -/
def strftimeDisplay (dt : PyDateTime) : String :=
  let h12 := if dt.hour % 12 = 0 then 12 else dt.hour % 12
  weekdayName (toordinal dt.year dt.month dt.day) ++ ", " ++ monthName dt.month ++ " "
    ++ pad2 dt.day ++ ", " ++ toString dt.year ++ " at " ++ pad2 h12 ++ ":"
    ++ pad2 dt.minute ++ " " ++ (if dt.hour < 12 then "AM" else "PM")

/-- `dt.strftime('%H:%M:%S')`. -/
def strftimeHMS (dt : PyDateTime) : String :=
  pad2 dt.hour ++ ":" ++ pad2 dt.minute ++ ":" ++ pad2 dt.second

/-- `format_datetime` from `convert_to_markdown.py`: parse after replacing
`Z` with `+00:00`; on success render the display format, on failure return
the input unchanged. -/
def format_datetime (iso_string : String) : String :=
  match fromisoformat (pyReplaceZ iso_string) with
  | some dt => strftimeDisplay dt
  | none => iso_string

/-- `s.endswith('Z')`. -/
def pyEndsWithZ (s : String) : Bool :=
  s.data.getLast? = some 'Z'

/-- `format_timestamp` from `convert_to_markdown.py`: replace `Z` only when
the string ends with `Z`, parse, and render `HH:MM:SS`; on failure return the
input unchanged. -/
def format_timestamp (timestamp_str : String) : String :=
  match (if pyEndsWithZ timestamp_str then fromisoformat (pyReplaceZ timestamp_str)
         else fromisoformat timestamp_str) with
  | some dt => strftimeHMS dt
  | none => timestamp_str

/-! ### Data model -/

/-- One transcript entry: a JSON object whose fields may each be absent. -/
structure Entry where
  text : Option String
  source : Option String
  speaker : Option String
  start_timestamp : Option String
  end_timestamp : Option String
  sequence_number : Option Int
deriving Repr, DecidableEq

/-- One meeting record: the JSON document handed to `generate_markdown`. -/
structure MeetingRecord where
  title : Option String
  created_at : Option String
  updated_at : Option String
  document_id : Option String
  transcript_entries : Option (List Entry)
deriving Repr, DecidableEq

/-! ### Transcript body (`format_transcript_entries`) -/

/-- The speaker-attribution rule of the body-formatting loop
(`convert_to_markdown.py` lines 103–112): `source == 'microphone'` wins,
then a truthy `speaker`, else `"them"`. -/
def speakerName (e : Entry) : String :=
  let source := e.source.getD ""
  let speaker := e.speaker.getD ""
  if source = "microphone" then "me"
  else if speaker ≠ "" then speaker
  else "them"

/-- The speaker-attribution code duplicated inside `get_transcript_stats`
(lines 168–178 of the source duplicate the rule rather than calling a shared
function; the duplication is kept here so that their agreement is a theorem). -/
def statsSpeakerName (e : Entry) : String :=
  let source := e.source.getD ""
  let speaker := e.speaker.getD ""
  if source = "microphone" then "me"
  else if speaker ≠ "" then speaker
  else "them"

/-- Comparator `lambda x: x.get('sequence_number', 0)` (ascending). -/
def seqR (a b : Entry) : Prop :=
  a.sequence_number.getD 0 ≤ b.sequence_number.getD 0

instance : DecidableRel seqR := fun a b =>
  Int.decLe (a.sequence_number.getD 0) (b.sequence_number.getD 0)

instance : IsTotal Entry seqR := ⟨fun _ _ => Int.le_total _ _⟩

instance : IsTrans Entry seqR := ⟨fun _ _ _ hab hbc => le_trans hab hbc⟩

/-- Comparator `lambda x: x.get('start_timestamp', '')` (ascending,
lexicographic string comparison). -/
def tsR (a b : Entry) : Prop :=
  a.start_timestamp.getD "" ≤ b.start_timestamp.getD ""

instance : DecidableRel tsR := fun a b =>
  inferInstanceAs (Decidable (a.start_timestamp.getD "" ≤ b.start_timestamp.getD ""))

instance : IsTotal Entry tsR := ⟨fun _ _ => le_total (α := String) _ _⟩

instance : IsTrans Entry tsR := ⟨fun _ _ _ hab hbc => le_trans (α := String) hab hbc⟩

/-- The sort-key selection of `format_transcript_entries`: inspect only the
first entry; Python's `sorted` is a stable ascending sort, modelled by the
stable `List.insertionSort`. -/
def sortEntries (entries : List Entry) : List Entry :=
  match entries with
  | [] => entries
  | e0 :: _ =>
    if e0.sequence_number.isSome then List.insertionSort seqR entries
    else if e0.start_timestamp.isSome then List.insertionSort tsR entries
    else entries

/-- The body of the per-entry loop of `format_transcript_entries`: `none`
when the trimmed text is empty (the entry is skipped), otherwise the emitted
line. -/
def entryLine (e : Entry) : Option String :=
  let text := pyStrip (e.text.getD "")
  if text = "" then none
  else
    let speaker_name := speakerName e
    let start_timestamp := e.start_timestamp.getD ""
    if start_timestamp ≠ "" then
      some ("**[" ++ format_timestamp start_timestamp ++ "] " ++ speaker_name ++ ":** " ++ text)
    else
      some ("**" ++ speaker_name ++ ":** " ++ text)

/-- `format_transcript_entries` from `convert_to_markdown.py`. -/
def format_transcript_entries (entries : List Entry) : String :=
  if entries.isEmpty then "*No transcript available*"
  else String.intercalate "\n\n" ((sortEntries entries).filterMap entryLine)

/-! ### Duration (`calculate_duration`) -/

/-- Python truthiness filter on an optional string field: keep only a present,
non-empty value (`[... for e in entries if e.get(field)]`). -/
def truthyStr (o : Option String) : Option String :=
  match o with
  | some s => if s = "" then none else some s
  | none => none

def durStartTimes (entries : List Entry) : List String :=
  entries.filterMap (fun e => truthyStr e.start_timestamp)

def durEndTimes (entries : List Entry) : List String :=
  entries.filterMap (fun e => truthyStr e.end_timestamp)

/-- Python `min` on a list of strings (`none` on the empty list). -/
def pyMinStr : List String → Option String
  | [] => none
  | x :: xs => some (xs.foldl (fun a b => if b < a then b else a) x)

/-- Python `max` on a list of strings (`none` on the empty list). -/
def pyMaxStr : List String → Option String
  | [] => none
  | x :: xs => some (xs.foldl (fun a b => if a < b then b else a) x)

/-- The datetime's value in microseconds since the calendar origin, ignoring
its timezone (naive interpretation). -/
def naiveEpochMicro (dt : PyDateTime) : Int :=
  ((toordinal dt.year dt.month dt.day * 86400 + dt.hour * 3600 + dt.minute * 60 + dt.second : Nat) : Int)
    * 1000000 + dt.microsecond

/-- The datetime's value in microseconds adjusted by its UTC offset. -/
def utcEpochMicro (dt : PyDateTime) : Int :=
  naiveEpochMicro dt - dt.tz.getD 0 * 1000000

/-- `end_dt - start_dt` in microseconds; Python raises `TypeError` (here
`none`, caught by the surrounding `except`) when one operand is naive and the
other aware. -/
def diffMicro (startDt endDt : PyDateTime) : Option Int :=
  match startDt.tz, endDt.tz with
  | some _, some _ => some (utcEpochMicro endDt - utcEpochMicro startDt)
  | none, none => some (naiveEpochMicro endDt - naiveEpochMicro startDt)
  | _, _ => none

/-- `timedelta.seconds`: the normalised sub-day seconds component, always in
`[0, 86400)` regardless of the sign of the difference. -/
def tdSecondsOfMicro (totalMicro : Int) : Nat :=
  ((totalMicro.emod 86400000000) / 1000000).toNat

/-- The rendering step of `calculate_duration` from `duration.seconds`. -/
def renderDuration (totalMicro : Int) : String :=
  let secs := tdSecondsOfMicro totalMicro
  let hours := secs / 3600
  let minutes := secs % 3600 / 60
  if hours > 0 then
    toString hours ++ " hour" ++ (if hours > 1 then "s" else "") ++ " "
      ++ toString minutes ++ " minute" ++ (if minutes ≠ 1 then "s" else "")
  else
    toString minutes ++ " minute" ++ (if minutes ≠ 1 then "s" else "")

/-- `calculate_duration` from `convert_to_markdown.py`: every failure path of
the `try` block (empty collections, unparseable min/max timestamp, mixed
naive/aware subtraction) yields `"Unknown"`. -/
def calculate_duration (entries : List Entry) : String :=
  if entries.isEmpty then "Unknown"
  else
    match pyMinStr (durStartTimes entries), pyMaxStr (durEndTimes entries) with
    | some minS, some maxE =>
      match fromisoformat (pyReplaceZ minS), fromisoformat (pyReplaceZ maxE) with
      | some sd, some ed =>
        match diffMicro sd ed with
        | some t => renderDuration t
        | none => "Unknown"
      | _, _ => "Unknown"
    | _, _ => "Unknown"

/-- Follows the spec's words for claim C5 (refinement comparison only, not a
translation of the source): substitute only a *trailing* `Z` with `+00:00`. -/
def trailingZSub (s : String) : String :=
  if pyEndsWithZ s then ⟨s.data.dropLast ++ ['+', '0', '0', ':', '0', '0']⟩ else s

/-- Follows the spec's words for claim C5 (refinement comparison only, not a
translation of the source): `calculate_duration` as the claim describes it,
parsing after substituting only a trailing `Z`.  The source instead calls
`.replace('Z', '+00:00')`, which substitutes every occurrence. -/
def calculateDurationTrailingSpec (entries : List Entry) : String :=
  if entries.isEmpty then "Unknown"
  else
    match pyMinStr (durStartTimes entries), pyMaxStr (durEndTimes entries) with
    | some minS, some maxE =>
      match fromisoformat (trailingZSub minS), fromisoformat (trailingZSub maxE) with
      | some sd, some ed =>
        match diffMicro sd ed with
        | some t => renderDuration t
        | none => "Unknown"
      | _, _ => "Unknown"
    | _, _ => "Unknown"

/-! ### Statistics (`get_transcript_stats`) -/

structure Stats where
  total_entries : Nat
  speakers : Nat
  words : Nat
deriving Repr, DecidableEq

/-- `get_transcript_stats` from `convert_to_markdown.py`: computed over the
raw, unfiltered entry list. -/
def get_transcript_stats (entries : List Entry) : Stats :=
  if entries.isEmpty then ⟨0, 0, 0⟩
  else
    ⟨entries.length,
     (entries.map statsSpeakerName).dedup.length,
     (entries.map (fun e => wordCount (e.text.getD ""))).sum⟩

/-! ### Document assembly (`generate_markdown`) -/

/-- `transcript_data.get('title', 'Untitled Meeting')`: the default applies
only when the key is absent. -/
def displayTitle (t : Option String) : String :=
  t.getD "Untitled Meeting"

/-- `format_datetime(x) if x else 'Unknown'` applied to a
`get(field, '')` value. -/
def formattedDate (c : Option String) : String :=
  let s := c.getD ""
  if s ≠ "" then format_datetime s else "Unknown"

/-- `generate_markdown` from `convert_to_markdown.py`: the f-string template,
assembled right-associated. -/
def generate_markdown (d : MeetingRecord) : String :=
  let title := displayTitle d.title
  let document_id := d.document_id.getD ""
  let entries := d.transcript_entries.getD []
  let formatted_created := formattedDate d.created_at
  let formatted_updated := formattedDate d.updated_at
  let stats := get_transcript_stats entries
  let duration := calculate_duration entries
  let formatted_transcript := format_transcript_entries entries
  "# " ++ (title ++ ("\n\n**Date:** " ++ (formatted_created ++ ("\n**Updated:** "
    ++ (formatted_updated ++ ("\n**Duration:** " ++ (duration ++ ("\n**Document ID:** `"
    ++ (document_id ++ ("`\n\n---\n\n## Meeting Statistics\n\n- **Total Entries:** "
    ++ (toString stats.total_entries ++ ("\n- **Speakers:** "
    ++ (toString stats.speakers ++ ("\n- **Total Words:** "
    ++ (toString stats.words ++ ("\n\n---\n\n## Transcript\n\n"
    ++ (formatted_transcript
    ++ "\n\n---\n\n*This transcript was downloaded and converted from Granola AI*\n")))))))))))))))))

/-! ### Helper lemmas -/

theorem mem_sortEntries {e : Entry} {es : List Entry} (h : e ∈ sortEntries es) : e ∈ es := by
  cases es with
  | nil => simp [sortEntries] at h
  | cons e0 rest =>
    simp only [sortEntries] at h
    split_ifs at h
    · exact (List.mem_insertionSort seqR).mp h
    · exact (List.mem_insertionSort tsR).mp h
    · exact h

/-! ### Claim theorems -/

/-- C1 counterexample: on a non-empty entry list whose single entry has
whitespace-only text, `format_transcript_entries` returns the empty string,
not the placeholder `*No transcript available*`. -/
theorem formatBody_whitespace_counterexample :
    format_transcript_entries [⟨some " ", none, none, none, none, none⟩]
        ≠ "*No transcript available*"
      ∧ format_transcript_entries [⟨some " ", none, none, none, none, none⟩] = "" := by
  decide

/-- C1 (amended): `format_transcript_entries` returns the placeholder
`*No transcript available*` exactly for the empty entry list; for a non-empty
list in which every entry's text is empty or whitespace-only after trimming,
it returns the empty string (all lines are filtered out and the join of no
lines is empty). -/
theorem formatBody_placeholder_iff_empty :
    format_transcript_entries [] = "*No transcript available*"
      ∧ ∀ es : List Entry, es ≠ [] → (∀ e ∈ es, pyStrip (e.text.getD "") = "") →
          format_transcript_entries es = "" := by
  refine ⟨rfl, ?_⟩
  intro es hne hall
  have hne' : es.isEmpty = false := by
    cases es with
    | nil => exact absurd rfl hne
    | cons a l => rfl
  have hnil : (sortEntries es).filterMap entryLine = [] := by
    rw [List.filterMap_eq_nil_iff]
    intro e he
    have hmem : e ∈ es := mem_sortEntries he
    unfold entryLine
    rw [hall e hmem]
    simp
  unfold format_transcript_entries
  rw [hne', hnil]
  rfl

/-- C1 witness: the amended statement applied to a concrete two-entry list of
whitespace-only texts. -/
theorem formatBody_placeholder_iff_empty_witness :
    format_transcript_entries
        [⟨some "  ", none, none, none, none, none⟩, ⟨none, none, none, none, none, none⟩] = "" :=
  formatBody_placeholder_iff_empty.2
    [⟨some "  ", none, none, none, none, none⟩, ⟨none, none, none, none, none, none⟩]
    (by decide) (by decide)

/-- C3: the sort key for the whole list is chosen by inspecting only the first
entry: a present `sequence_number` selects a stable ascending sort by
`sequence_number` (missing values default to `0`), else a present
`start_timestamp` selects a stable ascending lexicographic sort by
`start_timestamp` (missing values default to `""`), else the original order is
kept; and the concrete two-entry example renders `"a"` before `"b"` in either
input order. -/
theorem sortEntries_policy :
    (∀ (e0 : Entry) (rest : List Entry), e0.sequence_number.isSome = true →
        sortEntries (e0 :: rest) = List.insertionSort seqR (e0 :: rest)
          ∧ (sortEntries (e0 :: rest)).Perm (e0 :: rest)
          ∧ (sortEntries (e0 :: rest)).Pairwise
              (fun a b => a.sequence_number.getD 0 ≤ b.sequence_number.getD 0))
      ∧ (∀ (e0 : Entry) (rest : List Entry), e0.sequence_number = none →
            e0.start_timestamp.isSome = true →
            sortEntries (e0 :: rest) = List.insertionSort tsR (e0 :: rest)
              ∧ (sortEntries (e0 :: rest)).Perm (e0 :: rest)
              ∧ (sortEntries (e0 :: rest)).Pairwise
                  (fun a b => a.start_timestamp.getD "" ≤ b.start_timestamp.getD ""))
      ∧ (∀ (e0 : Entry) (rest : List Entry), e0.sequence_number = none →
            e0.start_timestamp = none → sortEntries (e0 :: rest) = e0 :: rest)
      ∧ format_transcript_entries
            [⟨some "b", none, none, none, none, some 2⟩, ⟨some "a", none, none, none, none, some 1⟩]
          = "**them:** a\n\n**them:** b"
      ∧ format_transcript_entries
            [⟨some "a", none, none, none, none, some 1⟩, ⟨some "b", none, none, none, none, some 2⟩]
          = "**them:** a\n\n**them:** b" := by
  refine ⟨?_, ?_, ?_, by decide, by decide⟩
  · intro e0 rest h
    have heq : sortEntries (e0 :: rest) = List.insertionSort seqR (e0 :: rest) := by
      simp [sortEntries, h]
    refine ⟨heq, ?_, ?_⟩
    · rw [heq]; exact List.perm_insertionSort _ _
    · rw [heq]; exact List.sorted_insertionSort seqR (e0 :: rest)
  · intro e0 rest h1 h2
    have heq : sortEntries (e0 :: rest) = List.insertionSort tsR (e0 :: rest) := by
      simp [sortEntries, h1, h2]
    refine ⟨heq, ?_, ?_⟩
    · rw [heq]; exact List.perm_insertionSort _ _
    · rw [heq]; exact List.sorted_insertionSort tsR (e0 :: rest)
  · intro e0 rest h1 h2
    simp [sortEntries, h1, h2]

/-- C3 witness: the first branch of the policy applied to a concrete list
whose first entry carries a `sequence_number`. -/
theorem sortEntries_policy_witness :
    sortEntries
        [⟨none, none, none, none, none, some 5⟩, ⟨none, none, none, none, none, some 3⟩]
      = List.insertionSort seqR
          [⟨none, none, none, none, none, some 5⟩, ⟨none, none, none, none, none, some 3⟩] :=
  (sortEntries_policy.1 ⟨none, none, none, none, none, some 5⟩
    [⟨none, none, none, none, none, some 3⟩] (by decide)).1

/-- C4: the attribution rule (`microphone` wins, then a non-empty `speaker`,
else `"them"`), and the statistics code computes the identical attribution,
so the multiset of names it draws speakers from is the same one the body
formatting assigns. -/
theorem speaker_attribution_consistent :
    (∀ e : Entry, e.source = some "microphone" → speakerName e = "me")
      ∧ (∀ e : Entry, e.source.getD "" ≠ "microphone" → e.speaker.getD "" ≠ "" →
          speakerName e = e.speaker.getD "")
      ∧ (∀ e : Entry, e.source.getD "" ≠ "microphone" → e.speaker.getD "" = "" →
          speakerName e = "them")
      ∧ (∀ e : Entry, statsSpeakerName e = speakerName e)
      ∧ (∀ (es : List Entry) (s : String),
          s ∈ es.map statsSpeakerName ↔ s ∈ es.map speakerName) := by
  refine ⟨?_, ?_, ?_, fun e => rfl, ?_⟩
  · intro e h
    simp [speakerName, h]
  · intro e h1 h2
    simp [speakerName, h1, h2]
  · intro e h1 h2
    simp [speakerName, h1, h2]
  · intro es s
    have h : statsSpeakerName = speakerName := funext fun _ => rfl
    rw [h]

/-- C4 witness: an entry with `source = "microphone"` and a conflicting
`speaker` field is still attributed `"me"`. -/
theorem speaker_attribution_witness :
    speakerName ⟨some "hi", some "microphone", some "Alice", none, none, none⟩ = "me" :=
  speaker_attribution_consistent.1
    ⟨some "hi", some "microphone", some "Alice", none, none, none⟩ rfl

/-- C6: statistics are computed over the raw, unfiltered entry list:
`total_entries` is the list length, `speakers` the number of distinct
attributed speaker names (body-formatting rule), `words` the sum of
whitespace-token counts of each entry's text, and the empty list yields
`⟨0, 0, 0⟩`. -/
theorem stats_spec :
    get_transcript_stats [] = ⟨0, 0, 0⟩
      ∧ (∀ es : List Entry, (get_transcript_stats es).total_entries = es.length)
      ∧ (∀ es : List Entry,
          (get_transcript_stats es).speakers = (es.map speakerName).dedup.length)
      ∧ (∀ es : List Entry,
          (get_transcript_stats es).words
            = (es.map (fun e => wordCount (e.text.getD ""))).sum) := by
  have hfun : statsSpeakerName = speakerName := funext fun _ => rfl
  refine ⟨rfl, ?_, ?_, ?_⟩
  · intro es
    cases es with
    | nil => rfl
    | cons a l => rfl
  · intro es
    cases es with
    | nil => rfl
    | cons a l =>
      simp only [get_transcript_stats, hfun]
      rfl
  · intro es
    cases es with
    | nil => rfl
    | cons a l => rfl

theorem exists_append_right {t : String} (s : String) {u : String}
    (h : ∃ p, u = p ++ t) : ∃ p, s ++ u = p ++ t := by
  obtain ⟨p, hp⟩ := h
  exact ⟨s ++ p, by rw [hp, String.append_assoc]⟩

theorem duration_unknown_of_empty (es : List Entry)
    (h : durStartTimes es = [] ∨ durEndTimes es = []) : calculate_duration es = "Unknown" := by
  unfold calculate_duration
  by_cases he : es.isEmpty = true
  · rw [if_pos he]
  · rw [if_neg he]
    rcases h with h | h
    · rw [h]
      rfl
    · rw [h]
      cases hmin : pyMinStr (durStartTimes es) with
      | none => rfl
      | some m => rfl

theorem duration_unknown_of_parse_fail (es : List Entry) (minS maxE : String)
    (h1 : pyMinStr (durStartTimes es) = some minS)
    (h2 : pyMaxStr (durEndTimes es) = some maxE)
    (h3 : fromisoformat (pyReplaceZ minS) = none ∨ fromisoformat (pyReplaceZ maxE) = none) :
    calculate_duration es = "Unknown" := by
  have he : es.isEmpty = false := by
    cases es with
    | nil => simp [durStartTimes, pyMinStr] at h1
    | cons a l => rfl
  unfold calculate_duration
  rw [he]
  simp only [Bool.false_eq_true, if_false]
  split
  · next minS2 maxE2 hmin hmax =>
    rw [h1, Option.some.injEq] at hmin
    rw [h2, Option.some.injEq] at hmax
    subst hmin
    subst hmax
    split
    · next sd ed hsd hed =>
      rcases h3 with h3 | h3
      · rw [h3] at hsd
        exact absurd hsd (by simp)
      · rw [h3] at hed
        exact absurd hed (by simp)
    · rfl
  · rfl

theorem foldlMin_spec : ∀ (xs : List String) (a : String),
    (xs.foldl (fun a b => if b < a then b else a) a) ∈ a :: xs
      ∧ ∀ x ∈ a :: xs, (xs.foldl (fun a b => if b < a then b else a) a) ≤ x := by
  intro xs
  induction xs with
  | nil =>
    intro a
    refine ⟨by simp, ?_⟩
    intro x hx
    simp only [List.mem_cons, List.not_mem_nil, or_false] at hx
    subst hx
    simp
  | cons y ys ih =>
    intro a
    have step : (if y < a then y else a) ≤ a ∧ (if y < a then y else a) ≤ y := by
      constructor
      · split_ifs with hy
        · exact le_of_lt hy
        · exact le_refl a
      · split_ifs with hy
        · exact le_refl y
        · exact le_of_not_lt hy
    have ihy := ih (if y < a then y else a)
    constructor
    · simp only [List.foldl_cons]
      rcases List.mem_cons.mp ihy.1 with hm | hm
      · rw [hm]
        split_ifs with hy
        · exact List.mem_cons_of_mem _ (List.mem_cons_self _ _)
        · exact List.mem_cons_self _ _
      · exact List.mem_cons_of_mem _ (List.mem_cons_of_mem _ hm)
    · intro x hx
      simp only [List.foldl_cons]
      rcases List.mem_cons.mp hx with hx1 | hx2
      · subst hx1
        exact le_trans (ihy.2 _ (List.mem_cons_self _ _)) step.1
      · rcases List.mem_cons.mp hx2 with hx3 | hx4
        · subst hx3
          exact le_trans (ihy.2 _ (List.mem_cons_self _ _)) step.2
        · exact ihy.2 x (List.mem_cons_of_mem _ hx4)

theorem foldlMax_spec : ∀ (xs : List String) (a : String),
    (xs.foldl (fun a b => if a < b then b else a) a) ∈ a :: xs
      ∧ ∀ x ∈ a :: xs, x ≤ xs.foldl (fun a b => if a < b then b else a) a := by
  intro xs
  induction xs with
  | nil =>
    intro a
    refine ⟨by simp, ?_⟩
    intro x hx
    simp only [List.mem_cons, List.not_mem_nil, or_false] at hx
    subst hx
    simp
  | cons y ys ih =>
    intro a
    have step : a ≤ (if a < y then y else a) ∧ y ≤ (if a < y then y else a) := by
      constructor
      · split_ifs with hy
        · exact le_of_lt hy
        · exact le_refl a
      · split_ifs with hy
        · exact le_refl y
        · exact le_of_not_lt hy
    have ihy := ih (if a < y then y else a)
    constructor
    · simp only [List.foldl_cons]
      rcases List.mem_cons.mp ihy.1 with hm | hm
      · rw [hm]
        split_ifs with hy
        · exact List.mem_cons_of_mem _ (List.mem_cons_self _ _)
        · exact List.mem_cons_self _ _
      · exact List.mem_cons_of_mem _ (List.mem_cons_of_mem _ hm)
    · intro x hx
      simp only [List.foldl_cons]
      rcases List.mem_cons.mp hx with hx1 | hx2
      · subst hx1
        exact le_trans step.1 (ihy.2 _ (List.mem_cons_self _ _))
      · rcases List.mem_cons.mp hx2 with hx3 | hx4
        · subst hx3
          exact le_trans step.2 (ihy.2 _ (List.mem_cons_self _ _))
        · exact ihy.2 x (List.mem_cons_of_mem _ hx4)

/-- C2: `generate_markdown` is a total function; it always produces the fixed
document template (witnessed here by the closing attribution footer), and
every fallible sub-step substitutes its fallback instead of propagating an
error: an unparseable date makes `format_datetime` return the input,
an unparseable timestamp makes `format_timestamp` return the input, and
`calculate_duration` yields `"Unknown"` when a timestamp collection is empty
or a parse fails. -/
theorem render_total_spec :
    (∀ d : MeetingRecord, ∃ p, generate_markdown d
        = p ++ "\n\n---\n\n*This transcript was downloaded and converted from Granola AI*\n")
      ∧ (∀ s : String, fromisoformat (pyReplaceZ s) = none → format_datetime s = s)
      ∧ (∀ s : String,
          (if pyEndsWithZ s then fromisoformat (pyReplaceZ s) else fromisoformat s) = none →
            format_timestamp s = s)
      ∧ (∀ es : List Entry, durStartTimes es = [] ∨ durEndTimes es = [] →
            calculate_duration es = "Unknown")
      ∧ (∀ (es : List Entry) (minS maxE : String), pyMinStr (durStartTimes es) = some minS →
            pyMaxStr (durEndTimes es) = some maxE →
            (fromisoformat (pyReplaceZ minS) = none ∨ fromisoformat (pyReplaceZ maxE) = none) →
            calculate_duration es = "Unknown") := by
  refine ⟨?_, ?_, ?_, duration_unknown_of_empty, duration_unknown_of_parse_fail⟩
  · intro d
    simp only [generate_markdown]
    repeat apply exists_append_right
    exact ⟨"", rfl⟩
  · intro s h
    unfold format_datetime
    rw [h]
  · intro s h
    unfold format_timestamp
    rw [h]

/-- C2 witness: the fallback branch of `format_datetime` on a malformed date. -/
theorem render_total_spec_witness :
    format_datetime "2024-13-99" = "2024-13-99" :=
  render_total_spec.2.1 "2024-13-99" (by decide)

/-- C5 counterexample: `calculate_duration` substitutes *every* `Z` (Python's
`str.replace`), not only a trailing one.  On a timestamp with an interior `Z`,
`"2024-01-01T10:00Z:00"`, the global substitution produces the parseable
`"2024-01-01T10:00+00:00:00"` and the code returns `"1 hour 0 minutes"`,
whereas the claim's trailing-only substitution leaves the string unparseable
and would give `"Unknown"`. -/
theorem calculate_duration_trailingZ_counterexample :
    calculate_duration
        [⟨none, none, none, some "2024-01-01T10:00Z:00", some "2024-01-01T11:00Z:00", none⟩]
      = "1 hour 0 minutes"
      ∧ calculateDurationTrailingSpec
          [⟨none, none, none, some "2024-01-01T10:00Z:00", some "2024-01-01T11:00Z:00", none⟩]
        = "Unknown"
      ∧ calculate_duration
            [⟨none, none, none, some "2024-01-01T10:00Z:00", some "2024-01-01T11:00Z:00", none⟩]
          ≠ calculateDurationTrailingSpec
              [⟨none, none, none, some "2024-01-01T10:00Z:00", some "2024-01-01T11:00Z:00", none⟩] := by
  refine ⟨by decide, by decide, by decide⟩

/-- C5 (amended: the substitution applies to every occurrence of `Z`, not only
a trailing one): `calculate_duration` returns `"Unknown"` for the empty list
and whenever either timestamp collection is empty or the chosen endpoint fails
to parse; the chosen endpoints are the lexicographic string minimum start and
maximum end; and the concrete single-entry example renders
`"1 hour 45 minutes"`. -/
theorem calculate_duration_spec :
    calculate_duration [] = "Unknown"
      ∧ (∀ es : List Entry, durStartTimes es = [] ∨ durEndTimes es = [] →
            calculate_duration es = "Unknown")
      ∧ (∀ (l : List String) (m : String), pyMinStr l = some m → m ∈ l ∧ ∀ x ∈ l, m ≤ x)
      ∧ (∀ (l : List String) (m : String), pyMaxStr l = some m → m ∈ l ∧ ∀ x ∈ l, x ≤ m)
      ∧ (∀ (es : List Entry) (minS maxE : String), pyMinStr (durStartTimes es) = some minS →
            pyMaxStr (durEndTimes es) = some maxE →
            (fromisoformat (pyReplaceZ minS) = none ∨ fromisoformat (pyReplaceZ maxE) = none) →
            calculate_duration es = "Unknown")
      ∧ calculate_duration
            [⟨none, none, none, some "2024-01-01T10:00:00Z", some "2024-01-01T11:45:00Z", none⟩]
          = "1 hour 45 minutes" := by
  refine ⟨rfl, duration_unknown_of_empty, ?_, ?_, duration_unknown_of_parse_fail, by decide⟩
  · intro l m h
    cases l with
    | nil => simp [pyMinStr] at h
    | cons x xs =>
      simp only [pyMinStr, Option.some.injEq] at h
      subst h
      exact foldlMin_spec xs x
  · intro l m h
    cases l with
    | nil => simp [pyMaxStr] at h
    | cons x xs =>
      simp only [pyMaxStr, Option.some.injEq] at h
      subst h
      exact foldlMax_spec xs x

/-- C5 witness: the empty-collection branch on a list whose single entry has
no timestamps. -/
theorem calculate_duration_spec_witness :
    calculate_duration [⟨some "x", none, none, none, none, none⟩] = "Unknown" :=
  calculate_duration_spec.2.1 [⟨some "x", none, none, none, none, none⟩] (Or.inl (by decide))

/-- C7 counterexample: a record whose `title` is present but empty renders an
empty H1 (`# ` followed by a blank line), not `# Untitled Meeting` — the
`dict.get` default applies only to an absent key. -/
theorem title_empty_counterexample :
    generate_markdown ⟨some "", none, none, none, none⟩
        = "# \n\n**Date:** Unknown\n**Updated:** Unknown\n**Duration:** Unknown\n**Document ID:** ``\n\n---\n\n## Meeting Statistics\n\n- **Total Entries:** 0\n- **Speakers:** 0\n- **Total Words:** 0\n\n---\n\n## Transcript\n\n*No transcript available*\n\n---\n\n*This transcript was downloaded and converted from Granola AI*\n"
      ∧ List.isPrefixOf "# Untitled Meeting".data
          (generate_markdown ⟨some "", none, none, none, none⟩).data = false := by
  refine ⟨by decide, by decide⟩

/-- C7 (amended): the H1 title defaults to `Untitled Meeting` only when the
`title` field is absent; a present-but-empty title is rendered as-is. -/
theorem title_default_when_absent :
    ∀ d : MeetingRecord, d.title = none →
      ∃ rest, generate_markdown d
        = "# " ++ ("Untitled Meeting" ++ ("\n\n**Date:** " ++ rest)) := by
  intro d h
  simp only [generate_markdown, displayTitle, h, Option.getD_none]
  exact ⟨_, rfl⟩

/-- C7 witness: the amended statement on the all-absent record. -/
theorem title_default_when_absent_witness :
    ∃ rest, generate_markdown ⟨none, none, none, none, none⟩
        = "# " ++ ("Untitled Meeting" ++ ("\n\n**Date:** " ++ rest)) :=
  title_default_when_absent ⟨none, none, none, none, none⟩ rfl

/-- C8: `format_datetime` renders the parsed datetime's English display form
on success and returns the input string unchanged on parse failure; the
`**Date:**` slot of `generate_markdown` shows `"Unknown"` when `created_at`
is absent or empty; and the concrete example renders
`"Friday, March 15, 2024 at 09:30 AM"`. -/
theorem format_datetime_spec :
    (∀ (s : String) (dt : PyDateTime), fromisoformat (pyReplaceZ s) = some dt →
        format_datetime s = strftimeDisplay dt)
      ∧ (∀ s : String, fromisoformat (pyReplaceZ s) = none → format_datetime s = s)
      ∧ (∀ c : Option String, c = none ∨ c = some "" → formattedDate c = "Unknown")
      ∧ (∀ d : MeetingRecord, d.created_at = none ∨ d.created_at = some "" →
            ∃ t rest, generate_markdown d
              = "# " ++ (t ++ ("\n\n**Date:** " ++ ("Unknown" ++ ("\n**Updated:** " ++ rest)))))
      ∧ format_datetime "2024-03-15T09:30:00Z" = "Friday, March 15, 2024 at 09:30 AM" := by
  refine ⟨?_, ?_, ?_, ?_, by decide⟩
  · intro s dt h
    unfold format_datetime
    rw [h]
  · intro s h
    unfold format_datetime
    rw [h]
  · intro c h
    rcases h with h | h <;> subst h <;> rfl
  · intro d h
    have hu : formattedDate d.created_at = "Unknown" := by
      rcases h with h | h <;> rw [h] <;> rfl
    refine ⟨displayTitle d.title, ?_⟩
    simp only [generate_markdown, hu]
    exact ⟨_, rfl⟩

/-- C8 witness: the fallback branch on a malformed non-empty date string. -/
theorem format_datetime_spec_witness :
    format_datetime "not-a-date" = "not-a-date" :=
  format_datetime_spec.2.1 "not-a-date" (by decide)

/-- C10: the rendered duration depends only on the sub-day seconds component
of the difference (`timedelta.seconds`): whole days are discarded
(`renderDuration` is invariant under taking the difference modulo 24 hours,
and a 25-hour span renders `"1 hour 0 minutes"`), and the rendered value is
never negative — the seconds component lies in `[0, 86400)` even when the
maximum end precedes the minimum start, as in the reversed example rendering
`"23 hours 0 minutes"`. -/
theorem duration_subday_component :
    (∀ t : Int, renderDuration t = renderDuration (t.emod 86400000000))
      ∧ (∀ t : Int, tdSecondsOfMicro t < 86400)
      ∧ calculate_duration
            [⟨none, none, none, some "2024-01-01T10:00:00Z", some "2024-01-02T11:00:00Z", none⟩]
          = "1 hour 0 minutes"
      ∧ calculate_duration
            [⟨none, none, none, some "2024-01-01T10:00:00Z", some "2024-01-01T09:00:00Z", none⟩]
          = "23 hours 0 minutes" := by
  refine ⟨?_, ?_, by decide, by decide⟩
  · intro t
    have hmm : (t.emod 86400000000).emod 86400000000 = t.emod 86400000000 :=
      Int.emod_emod_of_dvd t dvd_rfl
    simp only [renderDuration, tdSecondsOfMicro, hmm]
  · intro t
    unfold tdSecondsOfMicro
    have h1 : 0 ≤ t.emod 86400000000 := Int.emod_nonneg t (by decide)
    have h2 : t.emod 86400000000 < 86400000000 := Int.emod_lt_of_pos t (by decide)
    omega

theorem hasDD_cons {c : Char} {l : List Char} (h : hasDD (c :: l) = false) : hasDD l = false := by
  cases l with
  | nil => rfl
  | cons c2 rest =>
    rw [hasDD] at h
    exact (Bool.or_eq_false_iff.mp h).2

theorem hasDD_append_left : ∀ (a b : List Char), hasDD (a ++ b) = false → hasDD a = false
  | [], _, _ => rfl
  | [c], _, _ => rfl
  | c1 :: c2 :: rest, b, h => by
    have h2 : hasDD (c1 :: c2 :: (rest ++ b)) = false := by simpa using h
    rw [hasDD] at h2
    rcases Bool.or_eq_false_iff.mp h2 with ⟨ha, hb⟩
    rw [hasDD, Bool.or_eq_false_iff]
    refine ⟨ha, ?_⟩
    exact hasDD_append_left (c2 :: rest) b (by rw [List.cons_append]; exact hb)

theorem hasDD_of_initial {a b : List Char} (h : a <+: b) (hb : hasDD b = false) :
    hasDD a = false := by
  obtain ⟨t, rfl⟩ := h
  exact hasDD_append_left a t hb

theorem hasDD_dropWhile (p : Char → Bool) :
    ∀ l : List Char, hasDD l = false → hasDD (l.dropWhile p) = false
  | [], h => h
  | c :: rest, h => by
    rw [List.dropWhile_cons]
    split_ifs with hc
    · exact hasDD_dropWhile p rest (hasDD_cons h)
    · exact h

theorem dropTrailingDashes_initial : ∀ l : List Char, dropTrailingDashes l <+: l
  | [] => List.prefix_refl []
  | c :: rest => by
    have ih := dropTrailingDashes_initial rest
    rw [dropTrailingDashes]
    split
    · split_ifs
      · exact List.nil_prefix
      · exact List.cons_prefix_cons.mpr ⟨rfl, List.nil_prefix⟩
    · exact List.cons_prefix_cons.mpr ⟨rfl, ih⟩

theorem hasDD_collapseDashes (l : List Char) : hasDD (collapseDashes l) = false := by
  rw [collapseDashes]
  split
  · exact hasDD_collapseDashes (replaceDD l)
  · next h => simpa using h
termination_by l.length
decreasing_by exact replaceDD_length_lt l (by assumption)

theorem mem_replaceDD : ∀ (l : List Char) (c : Char), c ∈ replaceDD l → c ∈ l ∨ c = '-'
  | [], c, h => by simp [replaceDD] at h
  | [a], c, h => by
    simp only [replaceDD, List.mem_singleton] at h
    subst h
    exact Or.inl (List.mem_singleton.mpr rfl)
  | c1 :: c2 :: rest, c, h => by
    rw [replaceDD] at h
    split_ifs at h with hd
    · rcases List.mem_cons.mp h with h1 | h1
      · exact Or.inr h1
      · rcases mem_replaceDD rest c h1 with h2 | h2
        · exact Or.inl (List.mem_cons_of_mem _ (List.mem_cons_of_mem _ h2))
        · exact Or.inr h2
    · rcases List.mem_cons.mp h with h1 | h1
      · exact Or.inl (h1 ▸ List.mem_cons_self _ _)
      · rcases mem_replaceDD (c2 :: rest) c h1 with h2 | h2
        · exact Or.inl (List.mem_cons_of_mem _ h2)
        · exact Or.inr h2

theorem mem_collapseDashes (l : List Char) (c : Char) (h : c ∈ collapseDashes l) :
    c ∈ l ∨ c = '-' := by
  rw [collapseDashes] at h
  split at h
  · rcases mem_collapseDashes (replaceDD l) c h with h1 | h1
    · exact mem_replaceDD l c h1
    · exact Or.inr h1
  · exact Or.inl h
termination_by l.length
decreasing_by exact replaceDD_length_lt l (by assumption)

theorem sanitizeMap_allowed (c : Char) :
    pyPrintable (sanitizeMap c) = true ∧ invalidChar (sanitizeMap c) = false := by
  unfold sanitizeMap
  split_ifs with h
  · rcases Bool.and_eq_true_iff.mp h with ⟨h1, h2⟩
    refine ⟨h1, ?_⟩
    simpa using h2
  · exact ⟨by decide, by decide⟩

/-- C9: for every input, `sanitize_filename` returns a non-empty string of at
most 100 characters, all of whose characters are members of Python's
`string.printable` and none of which is filesystem-unsafe; the result never
contains two adjacent dashes; and both an empty input and an empty sanitized
result fall back to `"untitled"`. -/
theorem sanitize_filename_spec : ∀ s : String,
    sanitize_filename s ≠ ""
      ∧ (sanitize_filename s).length ≤ 100
      ∧ (sanitize_filename s).data.all (fun c => pyPrintable c && !invalidChar c) = true
      ∧ hasDD (sanitize_filename s).data = false
      ∧ (s = "" → sanitize_filename s = "untitled")
      ∧ ((stripDashes (collapseDashes (s.data.map sanitizeMap))).take 100 = [] →
            sanitize_filename s = "untitled") := by
  intro s
  refine ⟨?_, ?_, ?_, ?_, ?_, ?_⟩
  · simp only [sanitize_filename]
    split_ifs with h1 h2
    · decide
    · decide
    · intro hcon
      apply h2
      have hd := congrArg String.data hcon
      exact hd
  · simp only [sanitize_filename]
    split_ifs with h1 h2
    · decide
    · decide
    · show ((stripDashes (collapseDashes (s.data.map sanitizeMap))).take 100).length ≤ 100
      exact List.length_take_le _ _
  · simp only [sanitize_filename]
    split_ifs with h1 h2
    · decide
    · decide
    · rw [List.all_eq_true]
      intro c hc
      have hc1 : c ∈ stripDashes (collapseDashes (s.data.map sanitizeMap)) :=
        List.take_subset _ _ hc
      have hc2 : c ∈ collapseDashes (s.data.map sanitizeMap) := by
        unfold stripDashes at hc1
        have hc3 := (dropTrailingDashes_initial _).subset hc1
        exact (List.dropWhile_sublist _).subset hc3
      rcases mem_collapseDashes _ c hc2 with h4 | h4
      · rcases List.mem_map.mp h4 with ⟨c0, _, rfl⟩
        have ha := sanitizeMap_allowed c0
        simp [ha.1, ha.2]
      · subst h4
        decide
  · simp only [sanitize_filename]
    split_ifs with h1 h2
    · decide
    · decide
    · show hasDD ((stripDashes (collapseDashes (s.data.map sanitizeMap))).take 100) = false
      apply hasDD_of_initial (List.take_prefix _ _)
      unfold stripDashes
      apply hasDD_of_initial (dropTrailingDashes_initial _)
      apply hasDD_dropWhile
      exact hasDD_collapseDashes _
  · intro h
    simp only [sanitize_filename, h, if_pos]
  · intro h
    simp only [sanitize_filename]
    split_ifs <;> rfl

/-- C9 witness: the empty-input fallback. -/
theorem sanitize_filename_spec_witness :
    sanitize_filename "" = "untitled" :=
  (sanitize_filename_spec "").2.2.2.2.1 rfl

end Granola
